import Mathlib

/-!
Verification development for the banking backend: the account service
(account creation, account read, balance adjustment) and the transaction
service (transfer processing and transaction status).

Amounts and balances are modelled as exact rationals.  Account ids and
caller (user) ids are natural numbers; the JSON string fields
(accountType, transactionType, the transfer's account ids) are strings,
matching the source.  A JavaScript falsy check on a numeric field
(written as a bang in the source) is modelled as a comparison with 0,
and a falsy check on a string field as a comparison with the empty
string, which is exactly the behaviour on the well-typed inputs the
model ranges over.
-/

namespace Banking

/-- Money values: exact rationals stand in for the numeric amounts of the
source. -/
abbrev Money := Rat

/-- Operation kind of an audit entry. -/
inductive TxType
  | credit
  | debit
deriving DecidableEq, Repr

/-- One account row of the accounts table: owner (user_id), account_type,
current balance, and the creation-time balance (the initial deposit, which
the insert writes into the balance column and nothing else ever sets). -/
structure Account where
  userId : Nat
  accountType : String
  balance : Money
  initialDeposit : Money
deriving DecidableEq, Repr

/-- Audit record of a successful balance update, with exactly the fields
the service logs on the Balance updated event: account id, old balance,
new balance, transaction type and amount. -/
structure AuditEntry where
  accountId : Nat
  oldBalance : Money
  newBalance : Money
  txType : TxType
  amount : Money
deriving DecidableEq, Repr

/-- Service state: the accounts table (keyed by account_id), the audit
trail, and the next account_id the database will assign. -/
structure St where
  accounts : List (Nat × Account)
  audit : List AuditEntry
  nextId : Nat
deriving DecidableEq, Repr

/-- Initial state: no accounts, no audit entries. -/
def emptySt : St := { accounts := [], audit := [], nextId := 1 }

/-- Row lookup by account_id (first matching row). -/
def lookupAcct : List (Nat × Account) → Nat → Option Account
  | [], _ => none
  | (k, a) :: rest, id => if k = id then some a else lookupAcct rest id

/-- Row lookup with the WHERE account_id = $1 AND user_id = $2 filter used
by the account queries. -/
def lookupOwned (accts : List (Nat × Account)) (accountId userId : Nat) :
    Option Account :=
  match lookupAcct accts accountId with
  | some a => if a.userId = userId then some a else none
  | none => none

/-- The UPDATE accounts SET balance WHERE account_id = $2 AND user_id = $3
statement: every row matching both keys gets the new balance. -/
def updateBalance : List (Nat × Account) → Nat → Nat → Money →
    List (Nat × Account)
  | [], _, _, _ => []
  | (k, a) :: rest, id, uid, b =>
      if k = id ∧ a.userId = uid then
        (k, { a with balance := b }) :: updateBalance rest id uid b
      else
        (k, a) :: updateBalance rest id uid b

/-- Outcome of POST api account. -/
inductive CreateResult
  | invalidType
  | invalidDeposit
  | ok (accountId : Nat)
deriving DecidableEq, Repr

/-- POST api account: validates accountType against the checking and
savings whitelist, then rejects an initialDeposit that is falsy (zero),
negative, or above 1000000; otherwise inserts a new row whose balance is
the deposit. -/
def createAccount (s : St) (callerId : Nat) (accountType : String)
    (initialDeposit : Money) : CreateResult × St :=
  if accountType ≠ "checking" ∧ accountType ≠ "savings" then
    (.invalidType, s)
  else if initialDeposit = 0 ∨ initialDeposit < 0 ∨ initialDeposit > 1000000 then
    (.invalidDeposit, s)
  else
    let id := s.nextId
    let acct : Account :=
      { userId := callerId, accountType := accountType,
        balance := initialDeposit, initialDeposit := initialDeposit }
    (.ok id,
      { s with accounts := s.accounts ++ [(id, acct)], nextId := s.nextId + 1 })

/-- Outcome of GET api account id.  The model's natural-number ids always
pass the digits-only format check of the source, so the 400 invalid-id
branch is unreachable here and is not represented. -/
inductive GetResult
  | denied
  | notFound
  | ok (balance : Money) (accountType : String)
deriving DecidableEq, Repr

/-- GET api account id: the handler first compares the caller id with the
requested account id and answers 403 on mismatch, before any query; then
queries the row with both the account id and the caller id. -/
def getAccount (s : St) (accountId callerId : Nat) : GetResult :=
  if callerId ≠ accountId then .denied
  else
    match lookupOwned s.accounts accountId callerId with
    | none => .notFound
    | some a => .ok a.balance a.accountType

/-- Outcome of PATCH api account id balance. -/
inductive AdjustResult
  | invalidAmount
  | invalidType
  | notFound
  | insufficientFunds
  | ok (newBalance : Money)
deriving DecidableEq, Repr

/-- HTTP status code and error message the balance handler sends for each
outcome. -/
def adjustHttp : AdjustResult → Nat × String
  | .invalidAmount => (400, "Invalid amount")
  | .invalidType => (400, "Invalid transaction type")
  | .notFound => (404, "Account not found")
  | .insufficientFunds => (400, "Insufficient funds")
  | .ok _ => (200, "")

/-- HTTP status code and error message of the account read handler. -/
def getHttp : GetResult → Nat × String
  | .denied => (403, "Access denied")
  | .notFound => (404, "Account not found")
  | .ok _ _ => (200, "")

/-- PATCH api account id balance, faithful to the source order: the falsy
and type check on amount, the whitelist check on transactionType, the
SELECT of the current balance scoped by caller, the newBalance
computation, the negative-balance guard, and finally the unconditional
UPDATE together with the Balance updated audit record. -/
def patchBalance (s : St) (accountId callerId : Nat) (amount : Money)
    (transactionType : String) : AdjustResult × St :=
  if amount = 0 then (.invalidAmount, s)
  else if transactionType ≠ "credit" ∧ transactionType ≠ "debit" then
    (.invalidType, s)
  else
    match lookupOwned s.accounts accountId callerId with
    | none => (.notFound, s)
    | some acct =>
        let currentBalance := acct.balance
        let newBalance :=
          if transactionType = "credit" then currentBalance + amount
          else currentBalance - amount
        if newBalance < 0 then (.insufficientFunds, s)
        else
          let entry : AuditEntry :=
            { accountId := accountId, oldBalance := currentBalance,
              newBalance := newBalance,
              txType := if transactionType = "credit" then .credit else .debit,
              amount := amount }
          (.ok newBalance,
            { s with
              accounts := updateBalance s.accounts accountId callerId newBalance,
              audit := s.audit ++ [entry] })

/-- The balance handler with its two store round trips made explicit: the
SELECT reads from the snapshot readAccts, and the UPDATE is applied to
whatever the table holds at write time (writeAccts).  The source issues
these as two separate queries with no balance condition on the UPDATE, so
a concurrent change between them is overwritten.  With
readAccts = writeAccts this coincides with patchBalance. -/
def patchBalanceRacy (readAccts writeAccts : List (Nat × Account))
    (accountId callerId : Nat) (amount : Money) (transactionType : String) :
    AdjustResult × List (Nat × Account) :=
  if amount = 0 then (.invalidAmount, writeAccts)
  else if transactionType ≠ "credit" ∧ transactionType ≠ "debit" then
    (.invalidType, writeAccts)
  else
    match lookupOwned readAccts accountId callerId with
    | none => (.notFound, writeAccts)
    | some acct =>
        let currentBalance := acct.balance
        let newBalance :=
          if transactionType = "credit" then currentBalance + amount
          else currentBalance - amount
        if newBalance < 0 then (.insufficientFunds, writeAccts)
        else
          (.ok newBalance,
            updateBalance writeAccts accountId callerId newBalance)

/-- One client-visible operation against the account service. -/
inductive Op
  | create (callerId : Nat) (accountType : String) (deposit : Money)
  | adjust (accountId callerId : Nat) (amount : Money)
      (transactionType : String)

/-- State after one operation. -/
def step (s : St) : Op → St
  | .create c t d => (createAccount s c t d).2
  | .adjust id c a t => (patchBalance s id c a t).2

/-- State after a sequence of operations. -/
def run (ops : List Op) (s : St) : St := ops.foldl step s

/-- Replay of one audit entry on a running balance. -/
def applyEntry (b : Money) (e : AuditEntry) : Money :=
  if e.txType = .credit then b + e.amount else b - e.amount

/-- Replay of a list of audit entries from a starting balance. -/
def replay (init : Money) (es : List AuditEntry) : Money :=
  es.foldl applyEntry init

/-- Audit entries of one account, in append order. -/
def auditFor (s : St) (id : Nat) : List AuditEntry :=
  s.audit.filter (fun e => e.accountId = id)

end Banking

namespace TransactionService

open Banking (Money St lookupAcct)

/-- Body of the 201 response of POST api transaction. -/
structure TxResponse where
  status : String
  fromAccount : String
  toAccount : String
  amount : Money
deriving DecidableEq, Repr

/-- Outcome of POST api transaction: the 400 Invalid transaction data
rejection, or the 201 response. -/
inductive TxResult
  | invalid
  | ok (r : TxResponse)
deriving DecidableEq, Repr

/-- POST api transaction: rejects a falsy fromAccount or toAccount (empty
string) or a non-positive amount, and otherwise answers 201 with status
completed.  The handler reads no database and calls no other service. -/
def processTransaction (fromAccount toAccount : String) (amount : Money) :
    TxResult :=
  if fromAccount = "" ∨ toAccount = "" ∨ amount ≤ 0 then .invalid
  else
    .ok { status := "completed", fromAccount := fromAccount,
          toAccount := toAccount, amount := amount }

/-- A transfer as seen by the whole system: the transaction service holds
no database connection and performs no outbound call, so the ledger state
of the account service is returned unchanged next to the HTTP response. -/
def transfer (ledger : St) (fromAccount toAccount : String)
    (amount : Money) : St × TxResult :=
  (ledger, processTransaction fromAccount toAccount amount)

/-- GET api transaction id: answers the fixed mock record, status
completed with amount 150, for every id. -/
def getTransaction (_txId : String) : String × Money :=
  ("completed", 150)

end TransactionService

namespace Banking

theorem lookupAcct_append_left {l l' : List (Nat × Account)} {id : Nat}
    {a : Account} (h : lookupAcct l id = some a) :
    lookupAcct (l ++ l') id = some a := by
  induction l with
  | nil => simp [lookupAcct] at h
  | cons p rest ih =>
      obtain ⟨k, b⟩ := p
      by_cases hk : k = id
      · simpa [lookupAcct, hk] using h
      · rw [List.cons_append]
        simp only [lookupAcct, if_neg hk] at h ⊢
        exact ih h

theorem lookupAcct_append_right {l l' : List (Nat × Account)} {id : Nat}
    (h : lookupAcct l id = none) :
    lookupAcct (l ++ l') id = lookupAcct l' id := by
  induction l with
  | nil => simp
  | cons p rest ih =>
      obtain ⟨k, b⟩ := p
      by_cases hk : k = id
      · simp [lookupAcct, hk] at h
      · rw [List.cons_append]
        simp only [lookupAcct, if_neg hk] at h ⊢
        exact ih h

theorem lookupAcct_mem {l : List (Nat × Account)} {id : Nat} {a : Account}
    (h : lookupAcct l id = some a) : (id, a) ∈ l := by
  induction l with
  | nil => simp [lookupAcct] at h
  | cons p rest ih =>
      obtain ⟨k, b⟩ := p
      by_cases hk : k = id
      · simp only [lookupAcct, if_pos hk] at h
        subst hk
        obtain rfl : b = a := by injection h
        exact List.mem_cons_self _ _
      · simp only [lookupAcct, if_neg hk] at h
        exact List.mem_cons_of_mem _ (ih h)

theorem updateBalance_fst_mem {l : List (Nat × Account)} {id uid : Nat}
    {b : Money} {p : Nat × Account} (h : p ∈ updateBalance l id uid b) :
    ∃ a, (p.1, a) ∈ l := by
  induction l with
  | nil => simp [updateBalance] at h
  | cons q rest ih =>
      obtain ⟨k, a⟩ := q
      simp only [updateBalance] at h
      by_cases hc : k = id ∧ a.userId = uid
      · rw [if_pos hc] at h
        rcases List.mem_cons.mp h with h1 | h1
        · exact ⟨_, by rw [h1]; exact List.mem_cons_self _ _⟩
        · obtain ⟨a0, ha0⟩ := ih h1
          exact ⟨a0, List.mem_cons_of_mem _ ha0⟩
      · rw [if_neg hc] at h
        rcases List.mem_cons.mp h with h1 | h1
        · exact ⟨_, by rw [h1]; exact List.mem_cons_self _ _⟩
        · obtain ⟨a0, ha0⟩ := ih h1
          exact ⟨a0, List.mem_cons_of_mem _ ha0⟩

theorem lookupAcct_updateBalance_ne {l : List (Nat × Account)}
    {id uid id0 : Nat} {b : Money} (h : id0 ≠ id) :
    lookupAcct (updateBalance l id uid b) id0 = lookupAcct l id0 := by
  induction l with
  | nil => simp [updateBalance]
  | cons q rest ih =>
      obtain ⟨k, a⟩ := q
      simp only [updateBalance]
      by_cases hc : k = id ∧ a.userId = uid
      · rw [if_pos hc]
        have hk : k ≠ id0 := by rw [hc.1]; exact fun hcon => h hcon.symm
        simp only [lookupAcct, if_neg hk]
        exact ih
      · rw [if_neg hc]
        by_cases hk : k = id0
        · simp [lookupAcct, hk]
        · simp only [lookupAcct, if_neg hk]
          exact ih

theorem lookupAcct_updateBalance_eq {l : List (Nat × Account)}
    {id uid : Nat} {b : Money} {a : Account}
    (h : lookupAcct l id = some a) (howner : a.userId = uid) :
    lookupAcct (updateBalance l id uid b) id = some { a with balance := b } := by
  induction l with
  | nil => simp [lookupAcct] at h
  | cons q rest ih =>
      obtain ⟨k, a0⟩ := q
      by_cases hk : k = id
      · simp only [lookupAcct, if_pos hk] at h
        obtain rfl : a0 = a := by injection h
        simp only [updateBalance]
        rw [if_pos ⟨hk, howner⟩]
        simp [lookupAcct, hk]
      · simp only [lookupAcct, if_neg hk] at h
        simp only [updateBalance]
        by_cases hc : k = id ∧ a0.userId = uid
        · exact absurd hc.1 hk
        · rw [if_neg hc]
          simp only [lookupAcct, if_neg hk]
          exact ih h

/-- Inductive invariant of the account service: account ids and audit
account ids stay below the id counter, every stored balance is
non-negative, and replaying an account's audit entries from its initial
deposit yields its current balance. -/
def Inv (s : St) : Prop :=
  (∀ p ∈ s.accounts, p.1 < s.nextId) ∧
  (∀ e ∈ s.audit, e.accountId < s.nextId) ∧
  (∀ id a, lookupAcct s.accounts id = some a →
      0 ≤ a.balance ∧ replay a.initialDeposit (auditFor s id) = a.balance)

theorem inv_empty : Inv emptySt := by
  refine ⟨?_, ?_, ?_⟩ <;> intros <;> simp_all [emptySt, lookupAcct]

theorem lookupOwned_some {accts : List (Nat × Account)} {id uid : Nat}
    {a : Account} (h : lookupOwned accts id uid = some a) :
    lookupAcct accts id = some a ∧ a.userId = uid := by
  cases hc : lookupAcct accts id with
  | none => simp [lookupOwned, hc] at h
  | some b =>
      simp only [lookupOwned, hc] at h
      by_cases hb : b.userId = uid
      · rw [if_pos hb] at h
        obtain rfl : b = a := by injection h
        exact ⟨rfl, hb⟩
      · rw [if_neg hb] at h
        exact absurd h (by simp)

theorem createAccount_cases (s : St) (c : Nat) (t : String) (d : Money) :
    (createAccount s c t d).2 = s ∨
    (0 < d ∧ d ≤ 1000000 ∧
      createAccount s c t d =
        (.ok s.nextId,
         { s with
           accounts := s.accounts ++
             [(s.nextId,
               { userId := c, accountType := t, balance := d,
                 initialDeposit := d })],
           nextId := s.nextId + 1 })) := by
  unfold createAccount
  split
  · exact Or.inl rfl
  split
  · exact Or.inl rfl
  · rename_i hty hdep
    push_neg at hdep
    obtain ⟨h0, hneg, hmax⟩ := hdep
    exact Or.inr ⟨lt_of_le_of_ne hneg (Ne.symm h0), hmax, rfl⟩

theorem patchBalance_cases (s : St) (id c : Nat) (amt : Money) (tt : String) :
    ((∀ nb, (patchBalance s id c amt tt).1 ≠ .ok nb) ∧
      (patchBalance s id c amt tt).2 = s) ∨
    (∃ acct, lookupOwned s.accounts id c = some acct ∧ amt ≠ 0 ∧
      0 ≤ (if tt = "credit" then acct.balance + amt else acct.balance - amt) ∧
      patchBalance s id c amt tt =
        (.ok (if tt = "credit" then acct.balance + amt else acct.balance - amt),
         { s with
           accounts := updateBalance s.accounts id c
             (if tt = "credit" then acct.balance + amt else acct.balance - amt),
           audit := s.audit ++
             [{ accountId := id, oldBalance := acct.balance,
                newBalance :=
                  if tt = "credit" then acct.balance + amt
                  else acct.balance - amt,
                txType :=
                  if tt = "credit" then TxType.credit else TxType.debit,
                amount := amt }] })) := by
  by_cases hamt : amt = 0
  · left
    constructor <;> · first
      | exact fun nb => by simp [patchBalance, hamt]
      | simp [patchBalance, hamt]
  by_cases htt : tt ≠ "credit" ∧ tt ≠ "debit"
  · left
    constructor <;> · first
      | exact fun nb => by simp [patchBalance, hamt, htt]
      | simp [patchBalance, hamt, htt]
  cases hfind : lookupOwned s.accounts id c with
  | none =>
      left
      constructor <;> · first
        | exact fun nb => by simp [patchBalance, hamt, htt, hfind]
        | simp [patchBalance, hamt, htt, hfind]
  | some acct =>
      by_cases hlt :
          (if tt = "credit" then acct.balance + amt else acct.balance - amt) < 0
      · left
        constructor
        · intro nb
          simp only [patchBalance, if_neg hamt, if_neg htt, hfind, if_pos hlt]
          simp
        · simp only [patchBalance, if_neg hamt, if_neg htt, hfind, if_pos hlt]
      · right
        refine ⟨acct, rfl, hamt, not_lt.mp hlt, ?_⟩
        simp only [patchBalance, if_neg hamt, if_neg htt, hfind, if_neg hlt]

theorem replay_append (init : Money) (l : List AuditEntry) (e : AuditEntry) :
    replay init (l ++ [e]) = applyEntry (replay init l) e := by
  simp [replay, List.foldl_append]

theorem inv_step (s : St) (op : Op) (h : Inv s) : Inv (step s op) := by
  obtain ⟨hfresh, haudit, hacct⟩ := h
  cases op with
  | create c t d =>
      show Inv (createAccount s c t d).2
      rcases createAccount_cases s c t d with heq | ⟨hd0, hdmax, heq⟩
      · rw [heq]; exact ⟨hfresh, haudit, hacct⟩
      · have h2 : (createAccount s c t d).2 =
            { s with
              accounts := s.accounts ++
                [(s.nextId,
                  { userId := c, accountType := t, balance := d,
                    initialDeposit := d })],
              nextId := s.nextId + 1 } := by rw [heq]
        rw [h2]
        refine ⟨?_, ?_, ?_⟩
        · intro p hp
          rcases List.mem_append.mp hp with h1 | h1
          · exact Nat.lt_succ_of_lt (hfresh p h1)
          · rw [List.mem_singleton.mp h1]
            exact Nat.lt_succ_self _
        · intro e he
          exact Nat.lt_succ_of_lt (haudit e he)
        · intro id a hl
          have hl2 : lookupAcct
              (s.accounts ++
                [(s.nextId,
                  { userId := c, accountType := t, balance := d,
                    initialDeposit := d })]) id = some a := hl
          cases hcase : lookupAcct s.accounts id with
          | some a0 =>
              rw [lookupAcct_append_left hcase] at hl2
              injection hl2 with ha
              subst ha
              have hIH := hacct id a0 hcase
              simpa [auditFor] using hIH
          | none =>
              rw [lookupAcct_append_right hcase] at hl2
              simp only [lookupAcct] at hl2
              by_cases hn : s.nextId = id
              · rw [if_pos hn] at hl2
                obtain rfl :
                    ({ userId := c, accountType := t, balance := d,
                       initialDeposit := d } : Account) = a := by injection hl2
                refine ⟨le_of_lt hd0, ?_⟩
                have hfil :
                    (s.audit.filter (fun e => e.accountId = id)) = [] := by
                  rw [List.filter_eq_nil_iff]
                  intro e he
                  have hlt := haudit e he
                  rw [← hn]
                  simp only [decide_eq_true_eq]
                  omega
                simp [auditFor, hfil, replay]
              · rw [if_neg hn] at hl2
                exact absurd hl2 (by simp)
  | adjust aid c amt tt =>
      show Inv (patchBalance s aid c amt tt).2
      rcases patchBalance_cases s aid c amt tt with
        ⟨_, heq⟩ | ⟨acct, hfind, hamt, hnb, heq⟩
      · rw [heq]; exact ⟨hfresh, haudit, hacct⟩
      · obtain ⟨hlook, howner⟩ := lookupOwned_some hfind
        have h2 : (patchBalance s aid c amt tt).2 =
            { s with
              accounts := updateBalance s.accounts aid c
                (if tt = "credit" then acct.balance + amt
                 else acct.balance - amt),
              audit := s.audit ++
                [{ accountId := aid, oldBalance := acct.balance,
                   newBalance :=
                     if tt = "credit" then acct.balance + amt
                     else acct.balance - amt,
                   txType :=
                     if tt = "credit" then TxType.credit else TxType.debit,
                   amount := amt }] } := by rw [heq]
        rw [h2]
        refine ⟨?_, ?_, ?_⟩
        · intro p hp
          obtain ⟨a0, ha0⟩ := updateBalance_fst_mem hp
          exact hfresh (p.1, a0) ha0
        · intro e he
          rcases List.mem_append.mp he with h1 | h1
          · exact haudit e h1
          · rw [List.mem_singleton.mp h1]
            exact hfresh (aid, acct) (lookupAcct_mem hlook)
        · intro id0 a0 hl0
          by_cases hid : id0 = aid
          · subst hid
            have hupd := lookupAcct_updateBalance_eq hlook howner
              (b := if tt = "credit" then acct.balance + amt
                else acct.balance - amt)
            rw [hupd] at hl0
            injection hl0 with ha
            refine ⟨?_, ?_⟩
            · rw [← ha]; exact hnb
            · have hIH := (hacct id0 acct hlook).2
              rw [← ha]
              simp only [auditFor, List.filter_append] at hIH ⊢
              rw [show (List.filter (fun e => decide (e.accountId = id0))
                    [({ accountId := id0, oldBalance := acct.balance,
                        newBalance :=
                          if tt = "credit" then acct.balance + amt
                          else acct.balance - amt,
                        txType :=
                          if tt = "credit" then TxType.credit
                          else TxType.debit,
                        amount := amt } : AuditEntry)]) =
                  [{ accountId := id0, oldBalance := acct.balance,
                     newBalance :=
                       if tt = "credit" then acct.balance + amt
                       else acct.balance - amt,
                     txType :=
                       if tt = "credit" then TxType.credit else TxType.debit,
                     amount := amt }] from by simp]
              rw [replay_append, hIH]
              by_cases htt : tt = "credit" <;> simp [applyEntry, htt]
          · rw [lookupAcct_updateBalance_ne hid] at hl0
            have hIH := hacct id0 a0 hl0
            have hne : aid ≠ id0 := fun hcon => hid hcon.symm
            simpa [auditFor, List.filter_append, hne] using hIH

theorem inv_run (ops : List Op) (s : St) (h : Inv s) : Inv (run ops s) := by
  induction ops generalizing s with
  | nil => exact h
  | cons op rest ih => exact ih (step s op) (inv_step s op h)

theorem lookupOwned_none_of_not_owner {accts : List (Nat × Account)}
    {id uid : Nat}
    (h : ∀ a, lookupAcct accts id = some a → a.userId ≠ uid) :
    lookupOwned accts id uid = none := by
  unfold lookupOwned
  cases hc : lookupAcct accts id with
  | none => rfl
  | some a => simp [h a hc]

/-- Demonstration ledger state: one checking account with id 1, owned by
user 1, holding balance 60 after an initial deposit of 100 and a debit of
40. -/
def demoSt : St :=
  { accounts :=
      [(1, { userId := 1, accountType := "checking", balance := 60,
             initialDeposit := 100 })],
    audit :=
      [{ accountId := 1, oldBalance := 100, newBalance := 60,
         txType := .debit, amount := 40 }],
    nextId := 2 }

/-- C1: for every sequence of account creations and balance adjustments
starting from the empty store, every stored balance is non-negative;
account creation rejects a negative initial deposit with the
invalid-deposit validation error and leaves the store untouched; and a
balance adjustment whose computed new balance is below zero fails with
the insufficient-funds error and writes nothing. -/
theorem C1_nonneg_invariant :
    (∀ ops aid a, lookupAcct (run ops emptySt).accounts aid = some a →
        0 ≤ a.balance) ∧
    (∀ s c t (d : Money), (t = "checking" ∨ t = "savings") → d < 0 →
        createAccount s c t d = (.invalidDeposit, s)) ∧
    (∀ s aid c (amt : Money) tt acct,
        amt ≠ 0 → ¬(tt ≠ "credit" ∧ tt ≠ "debit") →
        lookupOwned s.accounts aid c = some acct →
        (if tt = "credit" then acct.balance + amt
         else acct.balance - amt) < 0 →
        patchBalance s aid c amt tt = (.insufficientFunds, s)) := by
  refine ⟨?_, ?_, ?_⟩
  · intro ops aid a hl
    exact ((inv_run ops emptySt inv_empty).2.2 aid a hl).1
  · intro s c t d ht hd
    have hty : ¬(t ≠ "checking" ∧ t ≠ "savings") := by
      rcases ht with h | h <;> simp [h]
    have hdep : d = 0 ∨ d < 0 ∨ d > 1000000 := Or.inr (Or.inl hd)
    simp only [createAccount, if_neg hty, if_pos hdep]
  · intro s aid c amt tt acct hamt htt hfind hlt
    simp only [patchBalance, if_neg hamt, if_neg htt, hfind, if_pos hlt]

/-- Witness for C1 at concrete inputs: the balance reached by a deposit
of 100 followed by a debit of 40 is non-negative, creating an account
with deposit -5 is rejected without effect, and a debit of 1000 against
balance 60 fails with insufficient funds without effect. -/
theorem C1_nonneg_invariant_witness :
    (0 : Money) ≤ (Account.mk 1 "checking" 60 100).balance ∧
    createAccount emptySt 7 "checking" (-5) = (.invalidDeposit, emptySt) ∧
    patchBalance demoSt 1 1 1000 "debit" = (.insufficientFunds, demoSt) := by
  refine ⟨?_, ?_, ?_⟩
  · have hlook : lookupAcct
        (run [Op.create 1 "checking" 100, Op.adjust 1 1 40 "debit"]
          emptySt).accounts 1 = some (Account.mk 1 "checking" 60 100) := by
      simp [run, step, createAccount, patchBalance, lookupOwned,
        lookupAcct, updateBalance, emptySt]
      norm_num
    exact C1_nonneg_invariant.1
      [Op.create 1 "checking" 100, Op.adjust 1 1 40 "debit"] 1
      (Account.mk 1 "checking" 60 100) hlook
  · exact C1_nonneg_invariant.2.1 emptySt 7 "checking" (-5) (Or.inl rfl)
      (by norm_num)
  · exact C1_nonneg_invariant.2.2 demoSt 1 1 1000 "debit"
      (Account.mk 1 "checking" 60 100)
      (by norm_num) (by decide) (by simp [demoSt, lookupOwned, lookupAcct])
      (by rw [if_neg (show ¬ ("debit" : String) = "credit" by decide)]
          norm_num)

/-- C5: every successful balance adjustment appends exactly one audit
record (the Balance updated record with old balance, new balance, kind
and amount) within the same operation, a failed adjustment appends none,
and for every reachable account, replaying its audit records in order
from its initial deposit reconstructs its current balance exactly. -/
theorem C5_audit_pairing :
    (∀ ops aid a, lookupAcct (run ops emptySt).accounts aid = some a →
        replay a.initialDeposit (auditFor (run ops emptySt) aid) =
          a.balance) ∧
    (∀ s aid c amt tt nb s2, patchBalance s aid c amt tt = (.ok nb, s2) →
        ∃ e, s2.audit = s.audit ++ [e] ∧ e.accountId = aid) ∧
    (∀ s aid c amt tt r s2, patchBalance s aid c amt tt = (r, s2) →
        (∀ nb, r ≠ .ok nb) → s2.audit = s.audit) := by
  refine ⟨?_, ?_, ?_⟩
  · intro ops aid a hl
    exact ((inv_run ops emptySt inv_empty).2.2 aid a hl).2
  · intro s aid c amt tt nb s2 hpb
    rcases patchBalance_cases s aid c amt tt with
      ⟨hne, _⟩ | ⟨acct, _, _, _, heq⟩
    · exact absurd (by rw [hpb]) (hne nb)
    · rw [heq] at hpb
      injection hpb with h1 h2
      subst h2
      exact ⟨_, rfl, rfl⟩
  · intro s aid c amt tt r s2 hpb hfail
    rcases patchBalance_cases s aid c amt tt with
      ⟨_, heq⟩ | ⟨acct, _, _, _, heq⟩
    · rw [hpb] at heq
      have hs : s2 = s := heq
      rw [hs]
    · rw [heq] at hpb
      injection hpb with h1 h2
      exact absurd (by rw [← h1]) (hfail _)

/-- Witness for C5: after a deposit of 100 and a debit of 40 on account
1, replaying the recorded audit entries from the initial deposit yields
the stored balance 60. -/
theorem C5_audit_pairing_witness :
    replay (100 : Money)
      (auditFor
        (run [Op.create 1 "checking" 100, Op.adjust 1 1 40 "debit"] emptySt)
        1) = 60 := by
  have hlook : lookupAcct
      (run [Op.create 1 "checking" 100, Op.adjust 1 1 40 "debit"]
        emptySt).accounts 1 = some (Account.mk 1 "checking" 60 100) := by
    simp [run, step, createAccount, patchBalance, lookupOwned,
      lookupAcct, updateBalance, emptySt]
    norm_num
  exact C5_audit_pairing.1
    [Op.create 1 "checking" 100, Op.adjust 1 1 40 "debit"] 1
    (Account.mk 1 "checking" 60 100) hlook

/-- C10: a negative numeric amount passes the balance-adjustment
validation; a debit of a negative amount a computes new balance
balance - a, that is, it increases the balance by the absolute value of
a, and succeeds whenever that computed balance is non-negative, while a
credit of a negative amount correspondingly decreases the balance. -/
theorem C10_negative_amount_inverts :
    ∀ s aid c (a : Money) acct, a < 0 →
      lookupOwned s.accounts aid c = some acct →
      (0 ≤ acct.balance - a →
        patchBalance s aid c a "debit" =
          (.ok (acct.balance - a),
           { s with
             accounts := updateBalance s.accounts aid c (acct.balance - a),
             audit := s.audit ++
               [{ accountId := aid, oldBalance := acct.balance,
                  newBalance := acct.balance - a, txType := .debit,
                  amount := a }] }) ∧
        acct.balance - a = acct.balance + |a|) ∧
      (0 ≤ acct.balance + a →
        patchBalance s aid c a "credit" =
          (.ok (acct.balance + a),
           { s with
             accounts := updateBalance s.accounts aid c (acct.balance + a),
             audit := s.audit ++
               [{ accountId := aid, oldBalance := acct.balance,
                  newBalance := acct.balance + a, txType := .credit,
                  amount := a }] }) ∧
        acct.balance + a = acct.balance - |a|) := by
  intro s aid c a acct ha hfind
  have hamt : a ≠ 0 := ne_of_lt ha
  have habs : |a| = -a := abs_of_neg ha
  constructor
  · intro hnb
    constructor
    · have hd : ¬(("debit" : String) ≠ "credit" ∧
          ("debit" : String) ≠ "debit") := by decide
      simp only [patchBalance, if_neg hamt, if_neg hd, hfind,
        if_neg (show ¬ ("debit" : String) = "credit" by decide)]
      rw [if_neg (not_lt.mpr hnb)]
    · rw [habs, sub_eq_add_neg]
  · intro hnb
    constructor
    · have hd : ¬(("credit" : String) ≠ "credit" ∧
          ("credit" : String) ≠ "debit") := by decide
      simp only [patchBalance, if_neg hamt, if_neg hd, hfind,
        eq_self_iff_true, if_true]
      rw [if_neg (not_lt.mpr hnb)]
    · rw [habs, sub_neg_eq_add]

/-- Witness for C10: a debit of -5 against balance 60 succeeds and raises
the stored balance to 65, an increase by the absolute value of the
amount. -/
theorem C10_negative_amount_inverts_witness :
    (patchBalance demoSt 1 1 (-5) "debit" =
      (.ok ((60 : Money) - (-5)),
       { demoSt with
         accounts := updateBalance demoSt.accounts 1 1 (60 - (-5)),
         audit := demoSt.audit ++
           [{ accountId := 1, oldBalance := 60, newBalance := 60 - (-5),
              txType := .debit, amount := -5 }] }) ∧
      (60 : Money) - (-5) = 60 + |(-5 : Money)|) := by
  exact (C10_negative_amount_inverts demoSt 1 1 (-5)
      (Account.mk 1 "checking" 60 100)
      (by norm_num) (by simp [demoSt, lookupOwned, lookupAcct])).1
    (by norm_num)

end Banking

namespace Banking

/-- C6 counterexample: account 1 exists and is owned by user 1, and the
caller is user 2, who does not own it.  The read returns the 403 Access
denied error, but the balance mutation returns the 404 Account not found
error, which differs from the denied error shape, so the claim that both
operations return Denied is false. -/
theorem C6_counterexample :
    getAccount demoSt 1 2 = .denied ∧
    patchBalance demoSt 1 2 5 "credit" = (.notFound, demoSt) ∧
    adjustHttp (patchBalance demoSt 1 2 5 "credit").1 =
      (404, "Account not found") ∧
    adjustHttp (patchBalance demoSt 1 2 5 "credit").1 ≠
      getHttp GetResult.denied := by
  have hpb : patchBalance demoSt 1 2 5 "credit" = (.notFound, demoSt) := by
    simp [patchBalance, lookupOwned, lookupAcct, demoSt]
  refine ⟨by simp [getAccount], hpb, ?_, ?_⟩
  · rw [hpb]
    rfl
  · rw [hpb]
    simp [adjustHttp, getHttp]

/-- C6 amended: an account read by a caller whose identity differs from
the requested account id returns Denied, whether or not the account
exists; a balance mutation by a caller who does not own the account
returns the NotFound error rather than Denied, and it is the same error
whether the account exists with a different owner or does not exist at
all, so existence is still not leaked. -/
theorem C6_amended_authorization :
    (∀ s aid c, c ≠ aid → getAccount s aid c = .denied) ∧
    (∀ s aid c (amt : Money) tt,
        amt ≠ 0 → ¬(tt ≠ "credit" ∧ tt ≠ "debit") →
        (∀ acct, lookupAcct s.accounts aid = some acct → acct.userId ≠ c) →
        patchBalance s aid c amt tt = (.notFound, s)) := by
  constructor
  · intro s aid c h
    simp [getAccount, h]
  · intro s aid c amt tt hamt htt howner
    have hnone := lookupOwned_none_of_not_owner howner
    simp only [patchBalance, if_neg hamt, if_neg htt, hnone]

/-- Witness for the amended C6: caller 2 gets Denied on reading account 1
both when it exists and when it does not, and gets the identical NotFound
result from the mutation in both cases. -/
theorem C6_amended_authorization_witness :
    getAccount demoSt 1 2 = .denied ∧
    getAccount emptySt 1 2 = .denied ∧
    patchBalance demoSt 1 2 5 "credit" = (.notFound, demoSt) ∧
    patchBalance emptySt 1 2 5 "credit" = (.notFound, emptySt) := by
  refine ⟨?_, ?_, ?_, ?_⟩
  · exact C6_amended_authorization.1 demoSt 1 2 (by decide)
  · exact C6_amended_authorization.1 emptySt 1 2 (by decide)
  · exact C6_amended_authorization.2 demoSt 1 2 5 "credit" (by norm_num)
      (by decide)
      (fun a ha => by
        simp [demoSt, lookupAcct] at ha
        rw [← ha]
        decide)
  · exact C6_amended_authorization.2 emptySt 1 2 5 "credit" (by norm_num)
      (by decide)
      (fun a ha => by simp [emptySt, lookupAcct] at ha)

/-- C7 counterexample: the negative amount -5 does not fail the
balance-adjustment validation: a debit of -5 against balance 60 reaches
the store, succeeds with new balance 65 and mutates the state, so the
claim that every negative amount fails validation with no side effect is
false. -/
theorem C7_counterexample :
    (patchBalance demoSt 1 1 (-5) "debit").1 = .ok 65 ∧
    (patchBalance demoSt 1 1 (-5) "debit").2 ≠ demoSt := by
  constructor
  · simp [patchBalance, demoSt, lookupOwned, lookupAcct, updateBalance]
    norm_num
  · have hlen : (patchBalance demoSt 1 1 (-5) "debit").2.audit.length = 2 := by
      simp [patchBalance, demoSt, lookupOwned, lookupAcct, updateBalance]
      norm_num
    intro hcon
    rw [hcon] at hlen
    simp [demoSt] at hlen

/-- C7 amended: a zero amount fails validation before any store access
with no side effect (as does a non-numeric amount, which the model
excludes by typing), but any non-zero amount, negative amounts included,
passes the amount validation. -/
theorem C7_amended_validation :
    (∀ s aid c tt, patchBalance s aid c 0 tt = (.invalidAmount, s)) ∧
    (∀ s aid c (a : Money) tt, a ≠ 0 →
        (patchBalance s aid c a tt).1 ≠ .invalidAmount) := by
  constructor
  · intro s aid c tt
    simp [patchBalance]
  · intro s aid c a tt ha
    simp only [patchBalance, if_neg ha]
    split
    · simp
    · split
      · simp
      · split <;> split <;> simp

/-- Witness for the amended C7: amount 0 is rejected as invalid with no
effect, while amount -5 is not rejected by the amount validation. -/
theorem C7_amended_validation_witness :
    patchBalance demoSt 1 1 0 "debit" = (.invalidAmount, demoSt) ∧
    (patchBalance demoSt 1 1 (-5) "debit").1 ≠ .invalidAmount :=
  ⟨C7_amended_validation.1 demoSt 1 1 "debit",
   C7_amended_validation.2 demoSt 1 1 (-5) "debit" (by norm_num)⟩

/-- C8 counterexample: an initial deposit of exactly 0 is inside the
interval the claim says is accepted, yet account creation rejects it with
the invalid-deposit validation error, because the handler treats a falsy
deposit as missing. -/
theorem C8_counterexample :
    createAccount emptySt 1 "checking" 0 = (.invalidDeposit, emptySt) := by
  simp [createAccount]

/-- C8 amended: with a valid account type, creation accepts every initial
deposit in the half-open interval from 0 exclusive to 1000000 inclusive,
and rejects every deposit that is zero, negative, or above 1000000 with
the invalid-deposit validation error. -/
theorem C8_amended_deposit_range :
    ∀ s c t (d : Money), (t = "checking" ∨ t = "savings") →
      ((0 < d ∧ d ≤ 1000000 →
          createAccount s c t d =
            (.ok s.nextId,
             { s with
               accounts := s.accounts ++
                 [(s.nextId,
                   { userId := c, accountType := t, balance := d,
                     initialDeposit := d })],
               nextId := s.nextId + 1 })) ∧
       (d ≤ 0 ∨ 1000000 < d →
          createAccount s c t d = (.invalidDeposit, s))) := by
  intro s c t d ht
  have hty : ¬(t ≠ "checking" ∧ t ≠ "savings") := by
    rcases ht with h | h <;> simp [h]
  constructor
  · rintro ⟨h0, hmax⟩
    have hdep : ¬(d = 0 ∨ d < 0 ∨ d > 1000000) := by
      simp only [not_or]
      exact ⟨ne_of_gt h0, not_lt.mpr (le_of_lt h0), not_lt.mpr hmax⟩
    simp only [createAccount, if_neg hty, if_neg hdep]
  · intro hd
    have hdep : d = 0 ∨ d < 0 ∨ d > 1000000 := by
      rcases hd with hd | hd
      · rcases lt_or_eq_of_le hd with h | h
        · exact Or.inr (Or.inl h)
        · exact Or.inl h
      · exact Or.inr (Or.inr hd)
    simp only [createAccount, if_neg hty, if_pos hdep]

/-- Witness for the amended C8: deposit 100 is accepted, while deposits 0
and 2000000 are rejected without effect. -/
theorem C8_amended_deposit_range_witness :
    createAccount emptySt 3 "checking" 100 =
      (.ok 1,
       { emptySt with
         accounts := emptySt.accounts ++
           [(1, { userId := 3, accountType := "checking", balance := 100,
                  initialDeposit := 100 })],
         nextId := 2 }) ∧
    createAccount emptySt 3 "checking" 0 = (.invalidDeposit, emptySt) ∧
    createAccount emptySt 3 "checking" 2000000 =
      (.invalidDeposit, emptySt) := by
  refine ⟨?_, ?_, ?_⟩
  · exact (C8_amended_deposit_range emptySt 3 "checking" 100
      (Or.inl rfl)).1 ⟨by norm_num, by norm_num⟩
  · exact (C8_amended_deposit_range emptySt 3 "checking" 0
      (Or.inl rfl)).2 (Or.inl le_rfl)
  · exact (C8_amended_deposit_range emptySt 3 "checking" 2000000
      (Or.inl rfl)).2 (Or.inr (by norm_num))

/-- C4 counterexample: the balance read by the handler is 100, but at
write time the stored balance is 30 (a concurrent change between the two
queries).  The stored balance differs from the balance read in the same
operation, yet the mutation succeeds with ok and overwrites the stored
value with 50; no ConflictError and no retry occur, so the claim is
false. -/
theorem C4_counterexample :
    lookupAcct [(1, Account.mk 1 "checking" 100 100)] 1 =
      some (Account.mk 1 "checking" 100 100) ∧
    lookupAcct [(1, Account.mk 1 "checking" 30 100)] 1 =
      some (Account.mk 1 "checking" 30 100) ∧
    (30 : Money) ≠ 100 ∧
    patchBalanceRacy [(1, Account.mk 1 "checking" 100 100)]
        [(1, Account.mk 1 "checking" 30 100)] 1 1 50 "debit" =
      (.ok 50, [(1, Account.mk 1 "checking" 50 100)]) := by
  refine ⟨by simp [lookupAcct], by simp [lookupAcct], by norm_num, ?_⟩
  simp [patchBalanceRacy, lookupOwned, lookupAcct, updateBalance]
  norm_num

/-- C4 amended: the balance mutation is a plain read followed by an
unconditional write: whenever the read snapshot yields an owned account
and the computed new balance is non-negative, the write succeeds against
any write-time table state, overwriting whatever balance it holds; there
is no compare-and-set primitive, no ConflictError, no retry loop and no
Contention error.  With identical read and write snapshots the race-aware
form coincides with the sequential handler. -/
theorem C4_amended_no_compare_and_set :
    (∀ readA writeA aid c (amt : Money) tt acct,
        amt ≠ 0 → ¬(tt ≠ "credit" ∧ tt ≠ "debit") →
        lookupOwned readA aid c = some acct →
        0 ≤ (if tt = "credit" then acct.balance + amt
             else acct.balance - amt) →
        patchBalanceRacy readA writeA aid c amt tt =
          (.ok (if tt = "credit" then acct.balance + amt
                else acct.balance - amt),
           updateBalance writeA aid c
             (if tt = "credit" then acct.balance + amt
              else acct.balance - amt))) ∧
    (∀ s aid c (amt : Money) tt,
        patchBalanceRacy s.accounts s.accounts aid c amt tt =
          ((patchBalance s aid c amt tt).1,
           (patchBalance s aid c amt tt).2.accounts)) := by
  constructor
  · intro readA writeA aid c amt tt acct hamt htt hfind hnb
    simp only [patchBalanceRacy, if_neg hamt, if_neg htt, hfind,
      if_neg (not_lt.mpr hnb)]
  · intro s aid c amt tt
    by_cases hamt : amt = 0
    · simp [patchBalanceRacy, patchBalance, hamt]
    by_cases htt : tt ≠ "credit" ∧ tt ≠ "debit"
    · simp [patchBalanceRacy, patchBalance, hamt, htt]
    cases hfind : lookupOwned s.accounts aid c with
    | none => simp [patchBalanceRacy, patchBalance, hamt, htt, hfind]
    | some acct =>
        by_cases hlt : (if tt = "credit" then acct.balance + amt
            else acct.balance - amt) < 0
        · simp only [patchBalanceRacy, patchBalance, if_neg hamt,
            if_neg htt, hfind, if_pos hlt]
        · simp only [patchBalanceRacy, patchBalance, if_neg hamt,
            if_neg htt, hfind, if_neg hlt]

/-- Witness for the amended C4: with read balance 100 and a concurrently
changed write-time balance 30, the debit of 50 succeeds and writes 50. -/
theorem C4_amended_no_compare_and_set_witness :
    patchBalanceRacy [(1, Account.mk 1 "checking" 100 100)]
        [(1, Account.mk 1 "checking" 30 100)] 1 1 50 "debit" =
      (.ok ((Account.mk 1 "checking" 100 100).balance - 50),
       updateBalance [(1, Account.mk 1 "checking" 30 100)] 1 1
         ((Account.mk 1 "checking" 100 100).balance - 50)) := by
  have h := C4_amended_no_compare_and_set.1
    [(1, Account.mk 1 "checking" 100 100)]
    [(1, Account.mk 1 "checking" 30 100)] 1 1 50 "debit"
    (Account.mk 1 "checking" 100 100)
    (by norm_num) (by decide) (by simp [lookupOwned, lookupAcct])
    (by rw [if_neg (show ¬ ("debit" : String) = "credit" by decide)]
        norm_num)
  rw [h]
  rw [if_neg (show ¬ ("debit" : String) = "credit" by decide)]

end Banking

namespace TransactionService

open Banking

/-- Ledger with two accounts: account 1 (owner 1) with balance 60 and
account 2 (owner 2) with balance 10. -/
def twoAcctLedger : St :=
  { accounts :=
      [(1, { userId := 1, accountType := "checking", balance := 60,
             initialDeposit := 60 }),
       (2, { userId := 2, accountType := "checking", balance := 10,
             initialDeposit := 10 })],
    audit := [], nextId := 3 }

/-- Ledger with the single account 1 (owner 1) holding balance 60. -/
def oneAcctLedger : St :=
  { accounts :=
      [(1, { userId := 1, accountType := "checking", balance := 60,
             initialDeposit := 60 })],
    audit := [], nextId := 2 }

/-- C2 counterexample: transferring 50 from account 1 (balance 60) to
account 2 (balance 10) is answered with status completed, but the ledger
is returned unchanged: the source balance is still 60, not 60 - 50,
because the transaction service performs no store access. -/
theorem C2_counterexample :
    (transfer twoAcctLedger "1" "2" 50).2 =
      .ok { status := "completed", fromAccount := "1", toAccount := "2",
            amount := 50 } ∧
    (transfer twoAcctLedger "1" "2" 50).1 = twoAcctLedger ∧
    lookupAcct ((transfer twoAcctLedger "1" "2" 50).1).accounts 1 =
      some (Account.mk 1 "checking" 60 60) ∧
    (60 : Money) ≠ 60 - 50 := by
  refine ⟨?_, rfl, ?_, by norm_num⟩
  · simp [transfer, processTransaction]
  · simp [transfer, twoAcctLedger, lookupAcct]

/-- C2 amended: every transfer request with non-empty account ids and a
positive amount is answered 201 with a record of status completed, and
the ledger is returned unchanged: no balance is debited or credited,
because the service performs no store access and calls no other
service. -/
theorem C2_amended_transfer_is_mock :
    ∀ (L : St) f t (a : Money), f ≠ "" → t ≠ "" → 0 < a →
      transfer L f t a =
        (L, .ok { status := "completed", fromAccount := f, toAccount := t,
                  amount := a }) := by
  intro L f t a hf ht ha
  have hcond : ¬(f = "" ∨ t = "" ∨ a ≤ 0) := by
    simp [hf, ht, not_le.mpr ha]
  simp only [transfer, processTransaction, if_neg hcond]

/-- Witness for the amended C2 at the concrete two-account ledger. -/
theorem C2_amended_transfer_is_mock_witness :
    transfer twoAcctLedger "1" "2" 50 =
      (twoAcctLedger,
       .ok { status := "completed", fromAccount := "1", toAccount := "2",
             amount := 50 }) :=
  C2_amended_transfer_is_mock twoAcctLedger "1" "2" 50 (by decide)
    (by decide) (by norm_num)

/-- C3 counterexample: a transfer of 50 from account 1 to the
non-existent account 9 is reported with status completed, not failed with
reason not found, and the transaction status endpoint also reports
completed for every id, so the claim is false. -/
theorem C3_counterexample :
    lookupAcct oneAcctLedger.accounts 9 = none ∧
    transfer oneAcctLedger "1" "9" 50 =
      (oneAcctLedger,
       .ok { status := "completed", fromAccount := "1", toAccount := "9",
             amount := 50 }) ∧
    ("completed" : String) ≠ "failed" ∧
    getTransaction "t1" = ("completed", 150) := by
  refine ⟨by simp [oneAcctLedger, lookupAcct], ?_, by decide, rfl⟩
  simp [transfer, processTransaction]

/-- C3 amended: the service has no credit step and no compensation path:
every well-formed transfer, including one whose destination account does
not exist in the ledger, is reported completed and leaves the ledger
(and hence the source balance) unchanged, and the transaction status
endpoint reports completed with amount 150 for every id. -/
theorem C3_amended_no_failure_path :
    (∀ (L : St) f t (a : Money), f ≠ "" → t ≠ "" → 0 < a →
        (transfer L f t a).1 = L ∧
        (transfer L f t a).2 =
          .ok { status := "completed", fromAccount := f, toAccount := t,
                amount := a }) ∧
    (∀ txId, getTransaction txId = ("completed", 150)) := by
  constructor
  · intro L f t a hf ht ha
    have hcond : ¬(f = "" ∨ t = "" ∨ a ≤ 0) := by
      simp [hf, ht, not_le.mpr ha]
    constructor
    · rfl
    · simp only [transfer, processTransaction, if_neg hcond]
  · intro txId
    rfl

/-- Witness for the amended C3 at a destination that is absent from the
ledger. -/
theorem C3_amended_no_failure_path_witness :
    (transfer oneAcctLedger "1" "9" 50).1 = oneAcctLedger ∧
    (transfer oneAcctLedger "1" "9" 50).2 =
      .ok { status := "completed", fromAccount := "1", toAccount := "9",
            amount := 50 } :=
  C3_amended_no_failure_path.1 oneAcctLedger "1" "9" 50 (by decide)
    (by decide) (by norm_num)

/-- C9 counterexample: a transfer whose source and destination are the
same account id 1 with positive amount 5 is not rejected: it is accepted
and reported completed. -/
theorem C9_counterexample :
    transfer oneAcctLedger "1" "1" 5 =
      (oneAcctLedger,
       .ok { status := "completed", fromAccount := "1", toAccount := "1",
             amount := 5 }) ∧
    (TxResult.ok { status := "completed", fromAccount := "1",
                   toAccount := "1", amount := 5 }) ≠ TxResult.invalid := by
  constructor
  · simp [transfer, processTransaction]
  · intro hcon
    cases hcon

/-- C9 amended: a non-positive amount, or a missing (empty) source or
destination id, is rejected immediately with the invalid-request error
and no store access; a transfer whose source id equals its destination id
is not rejected, but accepted and reported completed. -/
theorem C9_amended_validation :
    (∀ (L : St) f t (a : Money), a ≤ 0 →
        transfer L f t a = (L, .invalid)) ∧
    (∀ (L : St) f t (a : Money), f = "" ∨ t = "" →
        transfer L f t a = (L, .invalid)) ∧
    (∀ (L : St) f (a : Money), f ≠ "" → 0 < a →
        transfer L f f a =
          (L, .ok { status := "completed", fromAccount := f, toAccount := f,
                    amount := a })) := by
  refine ⟨?_, ?_, ?_⟩
  · intro L f t a ha
    simp [transfer, processTransaction, ha]
  · intro L f t a h
    rcases h with h | h <;> simp [transfer, processTransaction, h]
  · intro L f a hf ha
    have hcond : ¬(f = "" ∨ f = "" ∨ a ≤ 0) := by
      simp [hf, not_le.mpr ha]
    simp only [transfer, processTransaction, if_neg hcond]

/-- Witness for the amended C9: amount -3 and an empty source id are
rejected without effect, while source equal to destination is accepted as
completed. -/
theorem C9_amended_validation_witness :
    transfer oneAcctLedger "1" "2" (-3) = (oneAcctLedger, .invalid) ∧
    transfer oneAcctLedger "" "2" 5 = (oneAcctLedger, .invalid) ∧
    transfer oneAcctLedger "1" "1" 5 =
      (oneAcctLedger,
       .ok { status := "completed", fromAccount := "1", toAccount := "1",
             amount := 5 }) :=
  ⟨C9_amended_validation.1 oneAcctLedger "1" "2" (-3) (by norm_num),
   C9_amended_validation.2.1 oneAcctLedger "" "2" 5 (Or.inl rfl),
   C9_amended_validation.2.2 oneAcctLedger "1" 5 (by decide) (by norm_num)⟩

end TransactionService
